import Mathlib

/-!
Verification of the Sweet Shop backend (catalog + inventory service).

Shallow embedding: the Prisma-backed store is a `List Sweet`; each service
method of `InventoryService` (`src/services/inventoryService.ts`) and
`SweetService` (`src/services/sweetService.ts`) becomes a pure function from
a store to a result together with the post-state store.  JavaScript numbers
that flow into quantity parameters are modelled as rationals `ℚ` so that the
`Number.isInteger` guard is expressible; persisted `quantity` is an `ℤ`
(Prisma `Int` column); timestamps are `ℤ`.  A thrown `Error(msg)` becomes
`Except.error msg` paired with the unchanged store (the services throw before
any write).
-/

namespace SweetShop

/-- The `Sweet` row of the Prisma schema: id, unique name, category, price,
integer stock quantity, optional description and the two timestamps. -/
structure Sweet where
  id : String
  name : String
  category : String
  price : ℚ
  quantity : ℤ
  description : Option String
  createdAt : ℤ
  updatedAt : ℤ
  deriving Repr, DecidableEq

/-- `prisma.sweet.findUnique({ where: { id } })` over the explicit store. -/
def findById (store : List Sweet) (i : String) : Option Sweet :=
  store.find? (fun s => s.id == i)

/-- `prisma.sweet.findUnique({ where: { name } })` over the explicit store. -/
def findByName (store : List Sweet) (n : String) : Option Sweet :=
  store.find? (fun s => s.name == n)

/-- `prisma.sweet.update({ where: { id }, data: { quantity } })`: writes the
new quantity into the row with the given id and refreshes its `updatedAt`
(the Prisma `@updatedAt` attribute). -/
def writeQuantity (store : List Sweet) (i : String) (q now : ℤ) : List Sweet :=
  store.map (fun s => if s.id = i then { s with quantity := q, updatedAt := now } else s)

/-- The guard `Number.isInteger(quantity) && quantity > 0` on a JavaScript
number modelled as a rational: integral iff the reduced denominator is 1. -/
def isPositiveInt (q : ℚ) : Bool :=
  q.den == 1 && decide (0 < q)

/-- `InventoryService.purchaseSweet` (src/services/inventoryService.ts):
validates the quantity, looks the sweet up, rejects insufficient stock, and
otherwise writes `sweet.quantity - quantity` back.  Returns the result of the
call (`Except`) together with the post-state store. -/
def purchaseSweet (store : List Sweet) (i : String) (q : ℚ) (now : ℤ) :
    Except String Sweet × List Sweet :=
  if ¬ isPositiveInt q then
    (.error "Purchase quantity must be greater than zero", store)
  else
    match findById store i with
    | none => (.error "Sweet not found", store)
    | some sweet =>
      if (sweet.quantity : ℚ) < q then
        (.error "Insufficient quantity available", store)
      else
        (.ok { sweet with quantity := sweet.quantity - q.num, updatedAt := now },
         writeQuantity store i (sweet.quantity - q.num) now)

/-- `InventoryService.restockSweet` (src/services/inventoryService.ts):
validates the quantity, looks the sweet up, and writes
`sweet.quantity + quantity` back. -/
def restockSweet (store : List Sweet) (i : String) (q : ℚ) (now : ℤ) :
    Except String Sweet × List Sweet :=
  if ¬ isPositiveInt q then
    (.error "Restock quantity must be greater than zero", store)
  else
    match findById store i with
    | none => (.error "Sweet not found", store)
    | some sweet =>
      (.ok { sweet with quantity := sweet.quantity + q.num, updatedAt := now },
       writeQuantity store i (sweet.quantity + q.num) now)

/-- One inventory operation aimed at a fixed sweet id. -/
inductive InvOp where
  | purchase (q : ℚ)
  | restock (q : ℚ)
  deriving Repr, DecidableEq

/-- Running one operation: the post-state store of the service call (a failed
call leaves the store as it was). -/
def applyOp (i : String) (now : ℤ) (store : List Sweet) : InvOp → List Sweet
  | .purchase q => (purchaseSweet store i q now).2
  | .restock q => (restockSweet store i q now).2

/-- Running a sequence of inventory operations left to right. -/
def applyOps (i : String) (now : ℤ) (store : List Sweet) : List InvOp → List Sweet
  | [] => store
  | op :: ops => applyOps i now (applyOp i now store op) ops

/-- Every persisted quantity in the store is non-negative. -/
def NonNegStore (store : List Sweet) : Prop := ∀ s ∈ store, 0 ≤ s.quantity

instance (store : List Sweet) : Decidable (NonNegStore store) := by
  unfold NonNegStore; infer_instance

/-- Input accepted by `CreateSweetSchema` (src/types/index.ts): non-empty
name and category, positive price, non-negative integer quantity, optional
description.  The schema checks are upstream; the service consumes the typed
value. -/
structure CreateSweetInput where
  name : String
  category : String
  price : ℚ
  quantity : ℤ
  description : Option String
  deriving Repr, DecidableEq

/-- Input accepted by `UpdateSweetSchema` (src/types/index.ts): every field
optional. -/
structure UpdateSweetInput where
  name : Option String
  category : Option String
  price : Option ℚ
  quantity : Option ℤ
  description : Option String
  deriving Repr, DecidableEq

/-- JavaScript truthiness of an optional string (`undefined` and `""` are
falsy). -/
def truthyStr : Option String → Bool
  | none => false
  | some s => !s.isEmpty

/-- `prisma.sweet.update({ where: { id }, data: updateData })`: fields present
in the partial input overwrite the row, absent ones are untouched;
`updatedAt` is refreshed. -/
def applyUpdate (s : Sweet) (u : UpdateSweetInput) (now : ℤ) : Sweet :=
  { s with
    name := u.name.getD s.name
    category := u.category.getD s.category
    price := u.price.getD s.price
    quantity := u.quantity.getD s.quantity
    description := match u.description with
      | some d => some d
      | none => s.description
    updatedAt := now }

/-- `SweetService.createSweet` (src/services/sweetService.ts): rejects a
duplicate name, otherwise persists a new row (id generated by the store,
timestamps set to the creation instant). -/
def createSweet (store : List Sweet) (input : CreateSweetInput) (newId : String)
    (now : ℤ) : Except String Sweet × List Sweet :=
  match findByName store input.name with
  | some _ => (.error "Sweet with this name already exists", store)
  | none =>
    let sweet : Sweet :=
      ⟨newId, input.name, input.category, input.price, input.quantity,
       input.description, now, now⟩
    (.ok sweet, store ++ [sweet])

/-- `SweetService.updateSweet` (src/services/sweetService.ts): requires the
row to exist; when the partial input carries a truthy name different from the
current one, rejects it if any row already holds that name; otherwise applies
the partial update. -/
def updateSweet (store : List Sweet) (i : String) (u : UpdateSweetInput)
    (now : ℤ) : Except String Sweet × List Sweet :=
  match findById store i with
  | none => (.error "Sweet not found", store)
  | some existing =>
    let conflict : Bool :=
      match u.name with
      | some nm =>
        if ¬ nm.isEmpty ∧ nm ≠ existing.name then (findByName store nm).isSome
        else false
      | none => false
    if conflict then (.error "Sweet with this name already exists", store)
    else
      (.ok (applyUpdate existing u now),
       store.map (fun t => if t.id = i then applyUpdate t u now else t))

/-- `SweetService.deleteSweet` (src/services/sweetService.ts): requires the
row to exist, then removes it and returns the removed record. -/
def deleteSweet (store : List Sweet) (i : String) : Except String Sweet × List Sweet :=
  match findById store i with
  | none => (.error "Sweet not found", store)
  | some existing => (.ok existing, store.filter (fun t => t.id != i))

/-- The authenticated identity attached by the `authenticate` middleware
(src/middleware/auth.ts): the verified token payload. -/
structure Identity where
  id : String
  email : String
  role : String
  deriving Repr, DecidableEq

/-- The `DELETE /api/sweets/:id` pipeline (src/routes/sweetRoutes.ts):
`requireAdmin` (src/middleware/auth.ts) sends 403 and stops unless the role
is `ADMIN`; otherwise `SweetController.deleteSweet` maps the service result
to 200 / 404 / 500.  Returns the HTTP status with the post-state store. -/
def handleDeleteSweet (user : Identity) (store : List Sweet) (i : String) :
    Nat × List Sweet :=
  if user.role ≠ "ADMIN" then (403, store)
  else
    match deleteSweet store i with
    | (.ok _, store2) => (200, store2)
    | (.error e, store2) => (if e = "Sweet not found" then 404 else 500, store2)

/-- Search criteria after `SearchSweetSchema` coercion
(src/types/index.ts). -/
structure SearchSweetInput where
  name : Option String
  category : Option String
  minPrice : Option ℚ
  maxPrice : Option ℚ
  deriving Repr, DecidableEq

/-- Lower-cased character list of a string (the model of case folding used by
`mode: "insensitive"`). -/
def lowerChars (s : String) : List Char :=
  s.toList.map Char.toLower

/-- Whether the first list is a leading block of the second. -/
def startsCh : List Char → List Char → Bool
  | [], _ => true
  | _ :: _, [] => false
  | a :: as, b :: bs => a == b && startsCh as bs

/-- Whether the needle occurs contiguously inside the haystack. -/
def hasSub (needle : List Char) : List Char → Bool
  | [] => needle.isEmpty
  | hd :: tl => startsCh needle (hd :: tl) || hasSub needle tl

/-- Prisma `{ contains: needle, mode: "insensitive" }` on a string field. -/
def containsCI (haystack needle : String) : Bool :=
  hasSub (lowerChars needle) (lowerChars haystack)

/-- The `where` object built by `SweetService.searchSweets`, as a row
predicate: a truthy `name`/`category` adds a case-insensitive containment
condition, a present `minPrice`/`maxPrice` adds `gte`/`lte` on price; all
conditions are conjoined. -/
def matchesWhere (c : SearchSweetInput) (s : Sweet) : Bool :=
  (match c.name with
   | some n => if n.isEmpty then true else containsCI s.name n
   | none => true) &&
  (match c.category with
   | some n => if n.isEmpty then true else containsCI s.category n
   | none => true) &&
  (match c.minPrice with
   | some p => decide (p ≤ s.price)
   | none => true) &&
  (match c.maxPrice with
   | some p => decide (s.price ≤ p)
   | none => true)

/-- The row order of `orderBy: { createdAt: "desc" }`. -/
def createdDesc (a b : Sweet) : Prop := b.createdAt ≤ a.createdAt

instance : DecidableRel createdDesc := fun a b => Int.decLe b.createdAt a.createdAt

instance : IsTotal Sweet createdDesc := ⟨fun a b => le_total b.createdAt a.createdAt⟩

instance : IsTrans Sweet createdDesc := ⟨fun _ _ _ h1 h2 => le_trans h2 h1⟩

/-- `SweetService.getAllSweets`: `findMany` ordered by `createdAt`
descending. -/
def getAllSweets (store : List Sweet) : List Sweet :=
  store.insertionSort createdDesc

/-- `SweetService.searchSweets`: `findMany` with the built `where` object,
ordered by `createdAt` descending. -/
def searchSweets (store : List Sweet) (c : SearchSweetInput) : List Sweet :=
  (store.filter (matchesWhere c)).insertionSort createdDesc

/-- The search criteria as the spec words them: every supplied criterion
holds (case-insensitive substring on name and category, price within the
supplied bounds). -/
def MatchesSpec (c : SearchSweetInput) (s : Sweet) : Prop :=
  (∀ n, c.name = some n → containsCI s.name n = true) ∧
  (∀ n, c.category = some n → containsCI s.category n = true) ∧
  (∀ p, c.minPrice = some p → p ≤ s.price) ∧
  (∀ p, c.maxPrice = some p → s.price ≤ p)

/-- One issue produced by a failing Zod parse: the path and the message. -/
structure ZodIssue where
  path : String
  message : String
  deriving Repr, DecidableEq

/-- The raw search query after `z.coerce` has turned the price parameters
into numbers. -/
structure SearchRaw where
  name : Option String
  category : Option String
  minPrice : Option ℚ
  maxPrice : Option ℚ
  deriving Repr, DecidableEq

/-- Issues from `z.coerce.number().positive().optional()` on one field. -/
def positiveIssues (field : String) : Option ℚ → List ZodIssue
  | none => []
  | some v => if 0 < v then [] else [⟨field, "Number must be greater than 0"⟩]

/-- `SearchSweetSchema.parse` (src/types/index.ts): the base object schema
(optional strings, optional positive numbers) runs first; only when it
succeeds does the `.refine` run, which — when both prices are truthy —
requires `minPrice <= maxPrice` and otherwise reports one issue at path
`maxPrice`. -/
def searchSweetParse (r : SearchRaw) : Except (List ZodIssue) SearchRaw :=
  let base := positiveIssues "minPrice" r.minPrice ++ positiveIssues "maxPrice" r.maxPrice
  if base.isEmpty then
    match r.minPrice, r.maxPrice with
    | some lo, some hi =>
      if lo ≠ 0 ∧ hi ≠ 0 then
        if lo ≤ hi then .ok r
        else .error [⟨"maxPrice", "minPrice must be less than or equal to maxPrice"⟩]
      else .ok r
    | _, _ => .ok r
  else .error base

/-- How one of the two concurrent purchase calls of
`InventoryService.purchaseSweet` progresses: it has not yet read, or it holds
the quantity snapshot returned by `findUnique`, or it has finished
(successfully or with `Insufficient quantity available`). -/
inductive ProcSt where
  | ready
  | got (snap : ℤ)
  | over (ok : Bool)
  deriving Repr, DecidableEq

/-- Shared state of two in-flight purchase calls against the same row: the
persisted quantity and each call's progress. -/
structure ConcState where
  db : ℤ
  a : ProcSt
  b : ProcSt
  deriving Repr, DecidableEq

/-- The `findUnique` step: snapshot the current persisted quantity. -/
def procRead (db : ℤ) : ProcSt → ProcSt
  | .ready => .got db
  | s => s

/-- The check-and-update step, exactly as coded: compare the request against
the snapshot, and on success `update` writes the absolute value
`snapshot - n` computed from the (possibly stale) snapshot.  Returns the new
progress and the write, if any. -/
def procCommit (n : ℤ) : ProcSt → ProcSt × Option ℤ
  | .got snap => if snap < n then (.over false, none) else (.over true, some (snap - n))
  | s => (s, none)

/-- Interleaving labels: which call performs which of its two steps. -/
inductive ConcLabel where
  | readA
  | commitA
  | readB
  | commitB
  deriving Repr, DecidableEq

/-- One interleaved step of the two purchase calls (amounts `nA`, `nB`). -/
def concStep (nA nB : ℤ) (st : ConcState) : ConcLabel → ConcState
  | .readA => { st with a := procRead st.db st.a }
  | .commitA =>
    let r := procCommit nA st.a
    { st with a := r.1, db := r.2.getD st.db }
  | .readB => { st with b := procRead st.db st.b }
  | .commitB =>
    let r := procCommit nB st.b
    { st with b := r.1, db := r.2.getD st.db }

/-- Running an interleaving of the two calls left to right. -/
def concRun (nA nB : ℤ) (st : ConcState) : List ConcLabel → ConcState
  | [] => st
  | l :: ls => concRun nA nB (concStep nA nB st l) ls

/-- Fields of a row other than `quantity` and `updatedAt` agree. -/
def SameExceptQty (told tnew : Sweet) : Prop :=
  tnew.id = told.id ∧ tnew.name = told.name ∧ tnew.category = told.category ∧
  tnew.price = told.price ∧ tnew.description = told.description ∧
  tnew.createdAt = told.createdAt

/-! ## Helper lemmas -/

lemma isPositiveInt_iff {q : ℚ} : isPositiveInt q = true ↔ q.den = 1 ∧ 0 < q := by
  simp [isPositiveInt]

lemma num_cast_eq_self {q : ℚ} (h : q.den = 1) : (q.num : ℚ) = q :=
  (Rat.den_eq_one_iff q).mp h

lemma writeQuantity_nonneg {store : List Sweet} {i : String} {q now : ℤ}
    (hst : NonNegStore store) (hq : 0 ≤ q) : NonNegStore (writeQuantity store i q now) := by
  intro s hs
  rcases List.mem_map.mp hs with ⟨t, ht, rfl⟩
  by_cases h : t.id = i <;> simp [h, hq, hst t ht]

lemma applyOp_nonneg {store : List Sweet} {i : String} {now : ℤ} (op : InvOp)
    (hst : NonNegStore store) : NonNegStore (applyOp i now store op) := by
  cases op with
  | purchase q =>
    unfold applyOp purchaseSweet
    by_cases hv : isPositiveInt q
    · rcases isPositiveInt_iff.mp hv with ⟨hden, hpos⟩
      cases hfind : findById store i with
      | none => simpa [hv, hfind] using hst
      | some sweet =>
        by_cases hlt : (sweet.quantity : ℚ) < q
        · simpa [hv, hfind, hlt] using hst
        · have hle : q ≤ (sweet.quantity : ℚ) := not_lt.mp hlt
          have hle' : q.num ≤ sweet.quantity := by
            have h2 := hle
            rw [← num_cast_eq_self hden] at h2
            exact_mod_cast h2
          simpa [hv, hfind, hlt] using writeQuantity_nonneg hst (by omega)
    · simpa [hv] using hst
  | restock q =>
    unfold applyOp restockSweet
    by_cases hv : isPositiveInt q
    · rcases isPositiveInt_iff.mp hv with ⟨hden, hpos⟩
      have hnum : 0 < q.num := Rat.num_pos.mpr hpos
      cases hfind : findById store i with
      | none => simpa [hv, hfind] using hst
      | some sweet =>
        have hmem : sweet ∈ store := List.mem_of_find?_eq_some hfind
        have hq := hst sweet hmem
        simpa [hv, hfind] using writeQuantity_nonneg hst (by omega)
    · simpa [hv] using hst

lemma findById_writeQuantity (store : List Sweet) (i : String) (v now : ℤ) :
    findById (writeQuantity store i v now) i
      = (findById store i).map (fun s => { s with quantity := v, updatedAt := now }) := by
  induction store with
  | nil => rfl
  | cons s rest ih =>
    by_cases h : s.id = i
    · simp [findById, writeQuantity, List.find?_cons, h]
    · simpa [findById, writeQuantity, List.find?_cons, h] using ih

/-! ## C1 -/

/-- C1.  For every sequence of purchase and restock operations applied to one
Sweet (each purchase succeeding only when the current quantity is at least the
requested amount, which is exactly the `sweet.quantity < quantity` guard of
`InventoryService.purchaseSweet`), every persisted quantity — in particular the
targeted Sweet's — is still non-negative after every operation: since the
sequence is universally quantified, every prefix of a run satisfies the
invariant. -/
theorem purchase_restock_quantity_nonneg (i : String) (now : ℤ)
    (store : List Sweet) (ops : List InvOp) (hst : NonNegStore store) :
    NonNegStore (applyOps i now store ops) := by
  induction ops generalizing store with
  | nil => simpa [applyOps] using hst
  | cons op ops ih => exact ih _ (applyOp_nonneg op hst)

/-- Witness for C1: a two-element store run through a concrete
restock/purchase/purchase sequence keeps all quantities non-negative. -/
theorem purchase_restock_quantity_nonneg_witness :
    NonNegStore (applyOps "s1" 7
      [⟨"s1", "Ladoo", "dessert", 50, 5, none, 0, 0⟩,
       ⟨"s2", "Barfi", "dessert", 70, 2, none, 1, 1⟩]
      [InvOp.restock 3, InvOp.purchase 8, InvOp.purchase 1]) :=
  purchase_restock_quantity_nonneg "s1" 7 _ _ (by decide)

/-! ## C9 -/

/-- C9.  In both `purchaseSweet` and `restockSweet` the quantity validation
precedes the existence lookup: whenever the quantity is not a positive
integer, each call fails with its quantity-validation message — whatever the
id resolves to, including no Sweet at all — and the store is unchanged. -/
theorem quantity_check_precedes_lookup (store : List Sweet) (i : String)
    (q : ℚ) (now : ℤ) (hq : ¬ isPositiveInt q = true) :
    purchaseSweet store i q now
        = (.error "Purchase quantity must be greater than zero", store) ∧
    restockSweet store i q now
        = (.error "Restock quantity must be greater than zero", store) := by
  constructor <;> simp [purchaseSweet, restockSweet, hq]

/-- Witness for C9: quantity 0 against an id absent from the store yields the
validation error, not `Sweet not found`, and leaves the store intact. -/
theorem quantity_check_precedes_lookup_witness :
    purchaseSweet [] "missing" 0 0
        = (.error "Purchase quantity must be greater than zero", []) ∧
    restockSweet [] "missing" 0 0
        = (.error "Restock quantity must be greater than zero", []) :=
  quantity_check_precedes_lookup [] "missing" 0 0 (by decide)

/-! ## C3 -/

/-- C3.  Case analysis of `purchase(id, quantity)`: a quantity that is not a
positive integer fails with the validation error (`ValidationFailed`, HTTP
400); an id that resolves to no Sweet fails with `Sweet not found`
(`NotFound`, 404); a stock smaller than the request fails with `Insufficient
quantity available` (`InsufficientStock`, 400); otherwise the call returns
the Sweet with its quantity decremented by exactly the requested amount, and
the persisted row agrees. -/
theorem purchase_case_analysis (store : List Sweet) (i : String) (q : ℚ)
    (now : ℤ) :
    (¬ isPositiveInt q = true →
      purchaseSweet store i q now
        = (.error "Purchase quantity must be greater than zero", store)) ∧
    (isPositiveInt q = true → findById store i = none →
      purchaseSweet store i q now = (.error "Sweet not found", store)) ∧
    (∀ s, isPositiveInt q = true → findById store i = some s →
      (s.quantity : ℚ) < q →
      purchaseSweet store i q now
        = (.error "Insufficient quantity available", store)) ∧
    (∀ s, isPositiveInt q = true → findById store i = some s →
      q ≤ (s.quantity : ℚ) →
      purchaseSweet store i q now
        = (.ok { s with quantity := s.quantity - q.num, updatedAt := now },
           writeQuantity store i (s.quantity - q.num) now) ∧
      findById (purchaseSweet store i q now).2 i
        = some { s with quantity := s.quantity - q.num, updatedAt := now }) := by
  refine ⟨fun hq => by simp [purchaseSweet, hq],
    fun hq hfind => by simp [purchaseSweet, hq, hfind],
    fun s hq hfind hlt => by simp [purchaseSweet, hq, hfind, hlt],
    fun s hq hfind hle => ?_⟩
  have hnlt : ¬ (s.quantity : ℚ) < q := not_lt.mpr hle
  constructor
  · simp [purchaseSweet, hq, hfind, hnlt]
  · simp [purchaseSweet, hq, hfind, hnlt, findById_writeQuantity store i]

/-- Witness for C3: on a store holding one Sweet with stock 5, quantity 0
gives the validation error, a missing id gives `Sweet not found`, a request
of 9 gives the insufficiency error, and a request of 2 succeeds, leaving
stock 3. -/
theorem purchase_case_analysis_witness :
    (purchaseSweet [⟨"s1", "Ladoo", "dessert", 50, 5, none, 0, 0⟩] "s1" 0 3
        = (.error "Purchase quantity must be greater than zero",
           [⟨"s1", "Ladoo", "dessert", 50, 5, none, 0, 0⟩])) ∧
    (purchaseSweet [⟨"s1", "Ladoo", "dessert", 50, 5, none, 0, 0⟩] "nope" 1 3
        = (.error "Sweet not found",
           [⟨"s1", "Ladoo", "dessert", 50, 5, none, 0, 0⟩])) ∧
    (purchaseSweet [⟨"s1", "Ladoo", "dessert", 50, 5, none, 0, 0⟩] "s1" 9 3
        = (.error "Insufficient quantity available",
           [⟨"s1", "Ladoo", "dessert", 50, 5, none, 0, 0⟩])) ∧
    (purchaseSweet [⟨"s1", "Ladoo", "dessert", 50, 5, none, 0, 0⟩] "s1" 2 3
        = (.ok ⟨"s1", "Ladoo", "dessert", 50, 3, none, 0, 3⟩,
           [⟨"s1", "Ladoo", "dessert", 50, 3, none, 0, 3⟩])) := by
  refine ⟨(purchase_case_analysis _ "s1" 0 3).1 (by decide),
    (purchase_case_analysis _ "nope" 1 3).2.1 (by decide) (by decide),
    (purchase_case_analysis _ "s1" 9 3).2.2.1
      ⟨"s1", "Ladoo", "dessert", 50, 5, none, 0, 0⟩ (by decide) (by decide)
      (by norm_num),
    ?_⟩
  have h := ((purchase_case_analysis
      [⟨"s1", "Ladoo", "dessert", 50, 5, none, 0, 0⟩] "s1" 2 3).2.2.2
      ⟨"s1", "Ladoo", "dessert", 50, 5, none, 0, 0⟩
      (by decide) (by decide) (by norm_num)).1
  simpa [writeQuantity] using h

/-! ## C6 -/

lemma writeQuantity_writeQuantity (store : List Sweet) (i : String)
    (v1 now1 v2 now2 : ℤ) :
    writeQuantity (writeQuantity store i v1 now1) i v2 now2
      = writeQuantity store i v2 now2 := by
  unfold writeQuantity
  rw [List.map_map]
  apply List.map_congr_left
  intro t _
  by_cases h : t.id = i <;> simp [Function.comp, h]

lemma int_isPositiveInt {n : ℤ} (hn : 0 < n) : isPositiveInt (n : ℚ) = true := by
  simp [isPositiveInt, Rat.den_intCast]
  exact_mod_cast hn

/-- C6.  For a Sweet present in the store (with the invariant-mandated
non-negative stock) and a positive integer `n`, `restock(id, n)` followed by
`purchase(id, n)` with nothing else touching the row succeeds in both steps
and writes back exactly the original quantity: the post-state store is the
original store with only the row's `updatedAt` refreshed. -/
theorem restock_purchase_roundtrip (store : List Sweet) (i : String) (s : Sweet)
    (n now1 now2 : ℤ) (hfind : findById store i = some s)
    (hq : 0 ≤ s.quantity) (hn : 0 < n) :
    restockSweet store i (n : ℚ) now1
        = (.ok { s with quantity := s.quantity + n, updatedAt := now1 },
           writeQuantity store i (s.quantity + n) now1) ∧
    purchaseSweet (writeQuantity store i (s.quantity + n) now1) i (n : ℚ) now2
        = (.ok { s with quantity := s.quantity, updatedAt := now2 },
           writeQuantity store i s.quantity now2) := by
  have hv := int_isPositiveInt hn
  have hnum : ((n : ℚ)).num = n := Rat.num_intCast n
  constructor
  · simp [restockSweet, hv, hfind, hnum]
  · have hfind2 : findById (writeQuantity store i (s.quantity + n) now1) i
        = some { s with quantity := s.quantity + n, updatedAt := now1 } := by
      rw [findById_writeQuantity, hfind]; rfl
    have hnlt : ¬ ((s.quantity : ℚ) + (n : ℚ) < (n : ℚ)) := by
      rw [not_lt]
      have h0 : (0 : ℚ) ≤ (s.quantity : ℚ) := by exact_mod_cast hq
      linarith
    have harith : s.quantity + n - n = s.quantity := by omega
    simp only [purchaseSweet, hv, not_true_eq_false, if_false, hfind2,
      Int.cast_add, hnum]
    rw [if_neg hnlt, harith, writeQuantity_writeQuantity]

/-- Witness for C6: restocking 4 then purchasing 4 on a Sweet with stock 2
returns it to stock 2. -/
theorem restock_purchase_roundtrip_witness :
    restockSweet [⟨"s1", "Ladoo", "dessert", 50, 2, none, 0, 0⟩] "s1" 4 1
        = (.ok ⟨"s1", "Ladoo", "dessert", 50, 6, none, 0, 1⟩,
           [⟨"s1", "Ladoo", "dessert", 50, 6, none, 0, 1⟩]) ∧
    purchaseSweet [⟨"s1", "Ladoo", "dessert", 50, 6, none, 0, 1⟩] "s1" 4 2
        = (.ok ⟨"s1", "Ladoo", "dessert", 50, 2, none, 0, 2⟩,
           [⟨"s1", "Ladoo", "dessert", 50, 2, none, 0, 2⟩]) := by
  have h := restock_purchase_roundtrip
    [⟨"s1", "Ladoo", "dessert", 50, 2, none, 0, 0⟩] "s1"
    ⟨"s1", "Ladoo", "dessert", 50, 2, none, 0, 0⟩ 4 1 2 (by decide) (by decide)
    (by decide)
  simpa [writeQuantity] using h

/-! ## C10 -/

lemma forall₂_map_self {α : Type} (f : α → α) (R : α → α → Prop)
    (h : ∀ a, R a (f a)) (l : List α) : List.Forall₂ R l (l.map f) := by
  induction l with
  | nil => exact List.Forall₂.nil
  | cons a l ih => exact List.Forall₂.cons (h a) ih

lemma writeQuantity_frame (store : List Sweet) (i : String) (v now : ℤ) :
    List.Forall₂ (fun told tnew => (told.id ≠ i → tnew = told) ∧ SameExceptQty told tnew)
      store (writeQuantity store i v now) := by
  apply forall₂_map_self
  intro t
  by_cases h : t.id = i <;> simp [SameExceptQty, h]

/-- C10.  A successful `purchaseSweet` or `restockSweet` changes only the
targeted row's `quantity` (and `updatedAt`): the returned Sweet agrees with
the looked-up row on every other field, every row whose id differs from the
target is unchanged, and even the targeted row keeps all fields other than
`quantity`/`updatedAt`. -/
theorem inventory_write_frame (store store' : List Sweet) (i : String) (q : ℚ)
    (now : ℤ) (u : Sweet) :
    (purchaseSweet store i q now = (.ok u, store') →
      (∃ s, findById store i = some s ∧ SameExceptQty s u) ∧
      List.Forall₂
        (fun told tnew => (told.id ≠ i → tnew = told) ∧ SameExceptQty told tnew)
        store store') ∧
    (restockSweet store i q now = (.ok u, store') →
      (∃ s, findById store i = some s ∧ SameExceptQty s u) ∧
      List.Forall₂
        (fun told tnew => (told.id ≠ i → tnew = told) ∧ SameExceptQty told tnew)
        store store') := by
  constructor
  · intro hsucc
    simp only [purchaseSweet] at hsucc
    split at hsucc
    · simp at hsucc
    · split at hsucc
      · simp at hsucc
      · next sweet hfind =>
          split at hsucc
          · simp at hsucc
          · rw [Prod.mk.injEq] at hsucc
            obtain ⟨hu, hstore⟩ := hsucc
            injection hu with hu
            refine ⟨⟨sweet, hfind, ?_⟩, hstore ▸ writeQuantity_frame store i _ now⟩
            rw [← hu]
            simp [SameExceptQty]
  · intro hsucc
    simp only [restockSweet] at hsucc
    split at hsucc
    · simp at hsucc
    · split at hsucc
      · simp at hsucc
      · next sweet hfind =>
          rw [Prod.mk.injEq] at hsucc
          obtain ⟨hu, hstore⟩ := hsucc
          injection hu with hu
          refine ⟨⟨sweet, hfind, ?_⟩, hstore ▸ writeQuantity_frame store i _ now⟩
          rw [← hu]
          simp [SameExceptQty]

/-- Witness for C10: a successful purchase on a two-row store leaves the
other row untouched and preserves every non-quantity field of the target. -/
theorem inventory_write_frame_witness :
    (∃ s, findById
        [⟨"s1", "Ladoo", "dessert", 50, 5, none, 0, 0⟩,
         ⟨"s2", "Barfi", "dessert", 70, 2, none, 1, 1⟩] "s1" = some s ∧
      SameExceptQty s ⟨"s1", "Ladoo", "dessert", 50, 3, none, 0, 9⟩) ∧
    List.Forall₂
      (fun told tnew => (told.id ≠ "s1" → tnew = told) ∧ SameExceptQty told tnew)
      [⟨"s1", "Ladoo", "dessert", 50, 5, none, 0, 0⟩,
       ⟨"s2", "Barfi", "dessert", 70, 2, none, 1, 1⟩]
      [⟨"s1", "Ladoo", "dessert", 50, 3, none, 0, 9⟩,
       ⟨"s2", "Barfi", "dessert", 70, 2, none, 1, 1⟩] :=
  (inventory_write_frame
    [⟨"s1", "Ladoo", "dessert", 50, 5, none, 0, 0⟩,
     ⟨"s2", "Barfi", "dessert", 70, 2, none, 1, 1⟩]
    [⟨"s1", "Ladoo", "dessert", 50, 3, none, 0, 9⟩,
     ⟨"s2", "Barfi", "dessert", 70, 2, none, 1, 1⟩]
    "s1" 2 9 ⟨"s1", "Ladoo", "dessert", 50, 3, none, 0, 9⟩).1
    (by rfl)

/-! ## C4 -/

/-- C4.  Name uniqueness: `createSweet` fails with the conflict error whenever
some row already holds the requested name (case-sensitive `findUnique` on
`name`) and leaves the store unchanged; with no such row it persists and
returns the new Sweet; and `updateSweet` that changes a row's name (truthy,
different from its current name) to a name some row already holds fails with
the conflict error and leaves the store unchanged. -/
theorem name_uniqueness_conflict (store : List Sweet) (now : ℤ) :
    (∀ (input : CreateSweetInput) (newId : String) (s : Sweet),
      findByName store input.name = some s →
      createSweet store input newId now
        = (.error "Sweet with this name already exists", store)) ∧
    (∀ (input : CreateSweetInput) (newId : String),
      findByName store input.name = none →
      createSweet store input newId now
        = (.ok ⟨newId, input.name, input.category, input.price, input.quantity,
               input.description, now, now⟩,
           store ++ [⟨newId, input.name, input.category, input.price,
               input.quantity, input.description, now, now⟩])) ∧
    (∀ (i : String) (u : UpdateSweetInput) (ex c : Sweet) (nm : String),
      findById store i = some ex → u.name = some nm → nm.isEmpty = false →
      nm ≠ ex.name → findByName store nm = some c →
      updateSweet store i u now
        = (.error "Sweet with this name already exists", store)) := by
  refine ⟨fun input newId s h => by simp [createSweet, h],
    fun input newId h => by simp [createSweet, h],
    fun i u ex c nm hfind hname hne1 hne2 hconf => ?_⟩
  simp [updateSweet, hfind, hname, hne1, hne2, hconf]

/-- Witness for C4: with `"Ladoo"` and `"Barfi"` stored, creating another
`"Ladoo"` fails with the conflict error, creating the differently-cased
`"ladoo"` succeeds (case-sensitive equality), and renaming `"Barfi"` to
`"Ladoo"` fails with the conflict error. -/
theorem name_uniqueness_conflict_witness :
    (createSweet
        [⟨"s1", "Ladoo", "dessert", 50, 5, none, 0, 0⟩,
         ⟨"s2", "Barfi", "dessert", 70, 2, none, 1, 1⟩]
        ⟨"Ladoo", "dessert", 40, 3, none⟩ "s3" 2
      = (.error "Sweet with this name already exists",
         [⟨"s1", "Ladoo", "dessert", 50, 5, none, 0, 0⟩,
          ⟨"s2", "Barfi", "dessert", 70, 2, none, 1, 1⟩])) ∧
    (createSweet
        [⟨"s1", "Ladoo", "dessert", 50, 5, none, 0, 0⟩,
         ⟨"s2", "Barfi", "dessert", 70, 2, none, 1, 1⟩]
        ⟨"ladoo", "dessert", 40, 3, none⟩ "s3" 2
      = (.ok ⟨"s3", "ladoo", "dessert", 40, 3, none, 2, 2⟩,
         [⟨"s1", "Ladoo", "dessert", 50, 5, none, 0, 0⟩,
          ⟨"s2", "Barfi", "dessert", 70, 2, none, 1, 1⟩,
          ⟨"s3", "ladoo", "dessert", 40, 3, none, 2, 2⟩])) ∧
    (updateSweet
        [⟨"s1", "Ladoo", "dessert", 50, 5, none, 0, 0⟩,
         ⟨"s2", "Barfi", "dessert", 70, 2, none, 1, 1⟩]
        "s2" ⟨some "Ladoo", none, none, none, none⟩ 2
      = (.error "Sweet with this name already exists",
         [⟨"s1", "Ladoo", "dessert", 50, 5, none, 0, 0⟩,
          ⟨"s2", "Barfi", "dessert", 70, 2, none, 1, 1⟩])) := by
  refine ⟨(name_uniqueness_conflict _ 2).1 ⟨"Ladoo", "dessert", 40, 3, none⟩
      "s3" ⟨"s1", "Ladoo", "dessert", 50, 5, none, 0, 0⟩ (by decide),
    (name_uniqueness_conflict _ 2).2.1 ⟨"ladoo", "dessert", 40, 3, none⟩
      "s3" (by decide),
    (name_uniqueness_conflict _ 2).2.2 "s2" ⟨some "Ladoo", none, none, none, none⟩
      ⟨"s2", "Barfi", "dessert", 70, 2, none, 1, 1⟩
      ⟨"s1", "Ladoo", "dessert", 50, 5, none, 0, 0⟩ "Ladoo"
      (by decide) rfl (by decide) (by decide) (by decide)⟩

/-! ## C7 -/

/-- C7.  A `DELETE /sweets/:id` request from a `USER`-role identity is
rejected by `requireAdmin` with HTTP 403 before the controller runs, so
nothing is deleted — whether or not the id resolves to a Sweet. -/
theorem user_role_delete_forbidden (user : Identity) (store : List Sweet)
    (i : String) (h : user.role = "USER") :
    handleDeleteSweet user store i = (403, store) := by
  simp [handleDeleteSweet, h]

/-- Witness for C7: a `USER` identity deleting an existing Sweet gets 403 and
the store keeps the Sweet. -/
theorem user_role_delete_forbidden_witness :
    handleDeleteSweet ⟨"u1", "u@example.com", "USER"⟩
      [⟨"s1", "Ladoo", "dessert", 50, 5, none, 0, 0⟩] "s1"
      = (403, [⟨"s1", "Ladoo", "dessert", 50, 5, none, 0, 0⟩]) :=
  user_role_delete_forbidden ⟨"u1", "u@example.com", "USER"⟩
    [⟨"s1", "Ladoo", "dessert", 50, 5, none, 0, 0⟩] "s1" rfl

/-! ## C2 -/

/-- C2 is violated by the code: `purchaseSweet` performs `findUnique` and
`update` as two separate store operations, deciding on a snapshot, and the
`update` writes the absolute value `snapshot - n`.  With stock 5 and two
concurrent purchases of 5, the interleaving read-A, read-B, commit-A,
commit-B lets both calls pass the stock check and both succeed — 10 units
sold from a stock of 5, which no serialization admits (the serial order
read-A, commit-A, read-B, commit-B makes the second call fail).  So the
check and the decrement do not form one atomic unit with respect to the
store. -/
theorem concurrent_purchase_lost_update :
    concRun 5 5 ⟨5, .ready, .ready⟩
        [.readA, .readB, .commitA, .commitB]
      = ⟨0, .over true, .over true⟩ ∧
    concRun 5 5 ⟨5, .ready, .ready⟩
        [.readA, .commitA, .readB, .commitB]
      = ⟨0, .over true, .over false⟩ := by
  constructor <;> rfl

/-! ## C8 -/

/-- C8.  `SearchSweetSchema`: `name` and `category` are unconstrained
optional strings, `minPrice` and `maxPrice` optional positive numbers; when
the prices present are positive the parse succeeds — except that with both
present it fails, with the single issue at field `maxPrice`, exactly when
`minPrice > maxPrice`. -/
theorem search_schema_validation (r : SearchRaw) :
    (r.minPrice = none → r.maxPrice = none → searchSweetParse r = .ok r) ∧
    (∀ lo, r.minPrice = some lo → 0 < lo → r.maxPrice = none →
      searchSweetParse r = .ok r) ∧
    (∀ hi, r.maxPrice = some hi → 0 < hi → r.minPrice = none →
      searchSweetParse r = .ok r) ∧
    (∀ lo hi, r.minPrice = some lo → r.maxPrice = some hi → 0 < lo → 0 < hi →
      (searchSweetParse r
          = .error [⟨"maxPrice", "minPrice must be less than or equal to maxPrice"⟩]
        ↔ hi < lo) ∧
      (searchSweetParse r = .ok r ↔ lo ≤ hi)) := by
  refine ⟨fun h1 h2 => by simp [searchSweetParse, positiveIssues, h1, h2],
    fun lo h1 hpos h2 => by simp [searchSweetParse, positiveIssues, h1, h2, hpos],
    fun hi h1 hpos h2 => by simp [searchSweetParse, positiveIssues, h1, h2, hpos],
    fun lo hi h1 h2 hlo hhi => ?_⟩
  have hlo0 : lo ≠ 0 := ne_of_gt hlo
  have hhi0 : hi ≠ 0 := ne_of_gt hhi
  by_cases hle : lo ≤ hi
  · simp [searchSweetParse, positiveIssues, h1, h2, hlo, hhi, hlo0, hhi0, hle,
      not_lt.mpr hle]
  · simp [searchSweetParse, positiveIssues, h1, h2, hlo, hhi, hlo0, hhi0, hle,
      not_le.mp hle]

/-- Witness for C8: `minPrice 70, maxPrice 60` fails with the issue at
`maxPrice`; `minPrice 40, maxPrice 60` parses. -/
theorem search_schema_validation_witness :
    searchSweetParse ⟨none, none, some 70, some 60⟩
        = .error [⟨"maxPrice", "minPrice must be less than or equal to maxPrice"⟩] ∧
    searchSweetParse ⟨none, none, some 40, some 60⟩
        = .ok ⟨none, none, some 40, some 60⟩ :=
  ⟨((search_schema_validation ⟨none, none, some 70, some 60⟩).2.2.2 70 60
      rfl rfl (by norm_num) (by norm_num)).1.mpr (by norm_num),
   ((search_schema_validation ⟨none, none, some 40, some 60⟩).2.2.2 40 60
      rfl rfl (by norm_num) (by norm_num)).2.mpr (by norm_num)⟩

/-! ## C5 -/

lemma hasSub_nil (h : List Char) : hasSub [] h = true := by
  cases h <;> rfl

lemma containsCI_empty (s : String) : containsCI s "" = true := by
  unfold containsCI lowerChars
  exact hasSub_nil _

lemma strCond_iff (field : String) (o : Option String) :
    ((match o with
      | some n => if n.isEmpty then true else containsCI field n
      | none => true) = true)
      ↔ ∀ n, o = some n → containsCI field n = true := by
  cases o with
  | none => simp
  | some n =>
    by_cases he : n.isEmpty
    · have hn : n = "" := (String.isEmpty_iff n).mp he
      subst hn
      simp [containsCI_empty]
    · simp [he]

lemma geCond_iff (x : ℚ) (o : Option ℚ) :
    ((match o with
      | some p => decide (p ≤ x)
      | none => true) = true)
      ↔ ∀ p, o = some p → p ≤ x := by
  cases o <;> simp

lemma leCond_iff (x : ℚ) (o : Option ℚ) :
    ((match o with
      | some p => decide (x ≤ p)
      | none => true) = true)
      ↔ ∀ p, o = some p → x ≤ p := by
  cases o <;> simp

lemma matchesWhere_iff (c : SearchSweetInput) (s : Sweet) :
    matchesWhere c s = true ↔ MatchesSpec c s := by
  unfold matchesWhere MatchesSpec
  simp only [Bool.and_eq_true]
  rw [strCond_iff, strCond_iff, geCond_iff, leCond_iff]
  tauto

/-- C5.  `searchSweets` returns exactly the stored Sweets satisfying the
conjunction of all supplied criteria — case-insensitive substring on `name`
and on `category` when given, `price >= minPrice` and `price <= maxPrice`
when given — ordered by `createdAt` descending; with empty criteria it
returns exactly `getAllSweets`. -/
theorem search_filters_and_orders (store : List Sweet) (c : SearchSweetInput) :
    (∀ s, s ∈ searchSweets store c ↔ s ∈ store ∧ MatchesSpec c s) ∧
    List.Sorted createdDesc (searchSweets store c) ∧
    searchSweets store ⟨none, none, none, none⟩ = getAllSweets store := by
  refine ⟨fun s => ?_, ?_, ?_⟩
  · rw [searchSweets, List.mem_insertionSort, List.mem_filter, matchesWhere_iff]
  · exact List.sorted_insertionSort createdDesc _
  · unfold searchSweets getAllSweets
    congr 1
    apply List.filter_eq_self.mpr
    intro a _
    rfl

/-- Witness for C5: over Sweets priced 50 and 70, the criteria
`minPrice 40, maxPrice 60` select the 50-priced Sweet (it is in the result)
and not the 70-priced one. -/
theorem search_filters_and_orders_witness :
    (⟨"s1", "Ladoo", "dessert", 50, 5, none, 0, 0⟩ : Sweet) ∈
        searchSweets
          [⟨"s1", "Ladoo", "dessert", 50, 5, none, 0, 0⟩,
           ⟨"s2", "Barfi", "dessert", 70, 2, none, 1, 1⟩]
          ⟨none, none, some 40, some 60⟩ ∧
    (⟨"s2", "Barfi", "dessert", 70, 2, none, 1, 1⟩ : Sweet) ∉
        searchSweets
          [⟨"s1", "Ladoo", "dessert", 50, 5, none, 0, 0⟩,
           ⟨"s2", "Barfi", "dessert", 70, 2, none, 1, 1⟩]
          ⟨none, none, some 40, some 60⟩ := by
  constructor
  · exact ((search_filters_and_orders
      [⟨"s1", "Ladoo", "dessert", 50, 5, none, 0, 0⟩,
       ⟨"s2", "Barfi", "dessert", 70, 2, none, 1, 1⟩]
      ⟨none, none, some 40, some 60⟩).1 _).mpr
      ⟨by decide, by simp [MatchesSpec]; norm_num⟩
  · intro hmem
    have h := ((search_filters_and_orders
      [⟨"s1", "Ladoo", "dessert", 50, 5, none, 0, 0⟩,
       ⟨"s2", "Barfi", "dessert", 70, 2, none, 1, 1⟩]
      ⟨none, none, some 40, some 60⟩).1 _).mp hmem
    have h2 := h.2.2.2.2 60 rfl
    norm_num at h2

end SweetShop
